import Mathlib

/-!
Verification of the core round logic of `card_game.py`, a single-round
multi-player 54-card betting game.

Modelling conventions:
* Monetary values are Python `float`s in the source; they are modelled as `ℚ`.
  Every property checked here compares the stored result of an operation
  sequence with the same operation sequence, so exactness transfers.
* `Card` is a frozen dataclass (value equality on `rank`/`suit`); it is
  modelled as a structure with decidable equality.
* The deck is the list of cards; `Deck.draw` mutates the deck in the source
  and is modelled by explicit state passing, returning the (possibly failing)
  drawn cards together with the new deck state.  On failure the source raises
  before mutating, so the returned state is the unchanged deck.
* `prompt_bet` is interactive console input; it is modelled as an oracle
  `bets : Nat → ℚ` giving the value the collaborator returns for the i-th
  player.  Its contract (`0 ≤ v ≤ max_bet`, `v ≤ bankroll`) appears as
  hypotheses where a property needs it.
* `Deck.shuffle` uses Python's `random.Random`; the shuffled deck is passed
  to `play_round` as an explicit parameter (any permutation of `Deck.new`).
* Outcome strings that interpolate formatted amounts keep only their fixed
  skeleton; the two outcome strings the claims quote verbatim
  ("Cannot cover ante; skipped." and "No bet placed; round ended.")
  carry no interpolation in the source and are kept exactly.
-/

/-- `SUITS = ["♠", "♥", "♦", "♣"]`. -/
def SUITS : List String := ["♠", "♥", "♦", "♣"]

/-- `RANKS = ["A"] + [str(n) for n in range(2, 11)] + ["J", "Q", "K"]`. -/
def RANKS : List String := ["A"] ++ ((List.range' 2 9).map (fun n => toString n)) ++ ["J", "Q", "K"]

/-- `JOKER = "JOKER"`. -/
def JOKER : String := "JOKER"

/-- Frozen dataclass `Card(rank, suit)`; jokers have no suit. -/
structure Card where
  rank : String
  suit : Option String
deriving DecidableEq, Repr

/-- Decimal accumulator for `intOfString`. -/
def intOfDigits : List Char → Nat → Nat
  | [], acc => acc
  | c :: cs, acc => intOfDigits cs (acc * 10 + (c.toNat - 48))

/-- Python `int(s)` for a string of decimal digits.  In Python `int(...)`
raises on a non-numeric string; inside `Card.value` this branch is only
ever reached for the digit ranks "2".."10" of the deck. -/
def intOfString (s : String) : Nat := intOfDigits s.data 0

/-- `Card.value`: 0 for a joker (sentinel), 11 for A, 10 for K/Q/J, else
`int(self.rank)`. -/
def Card.value (c : Card) : Int :=
  if c.rank = JOKER then 0
  else if c.rank = "A" then 11
  else if c.rank = "K" ∨ c.rank = "Q" ∨ c.rank = "J" then 10
  else Int.ofNat (intOfString c.rank)

/-- `Deck.__init__`: suits outer loop, ranks inner loop, then two jokers. -/
def Deck.new : List Card :=
  (SUITS.map (fun suit => RANKS.map (fun rank => Card.mk rank (some suit)))).flatten
    ++ [Card.mk JOKER none, Card.mk JOKER none]

/-- `Deck.draw(count)`: raises "Not enough cards to draw" if `count`
exceeds the remaining card count (deck unchanged), else returns the first
`count` cards and leaves the deck at the remainder. -/
def Deck.draw (cards : List Card) (count : Nat) : Except String (List Card) × List Card :=
  if count > cards.length then (Except.error "Not enough cards to draw", cards)
  else (Except.ok (cards.take count), cards.drop count)

/-- `score_hand(hand)`: sum of `value()` over the non-joker cards. -/
def score_hand (hand : List Card) : Int :=
  ((hand.filter (fun c => c.rank ≠ JOKER)).map Card.value).sum

/-- `hand_has_joker(hand)`: true iff some card in the hand is a joker. -/
def hand_has_joker (hand : List Card) : Bool :=
  hand.any (fun c => c.rank = JOKER)

/-- Dataclass `Player`: name, bankroll and the per-round transient fields. -/
structure Player where
  name : String
  bankroll : ℚ
  hand : List Card := []
  ante_paid : ℚ := 0
  bet : ℚ := 0
  outcome : String := ""
  payout : ℚ := 0
deriving DecidableEq, Repr

/-- `Player.reset_round`: clears hand, ante_paid, bet, outcome and payout. -/
def Player.reset_round (p : Player) : Player :=
  { p with hand := [], ante_paid := 0, bet := 0, outcome := "", payout := 0 }

/-- `Player.pay(amount)`: raises "cannot cover" when `amount > bankroll`,
else debits the bankroll. -/
def Player.pay (p : Player) (amount : ℚ) : Except String Player :=
  if amount > p.bankroll then Except.error (p.name ++ " cannot cover the payment")
  else Except.ok { p with bankroll := p.bankroll - amount }

/-- `Player.credit(amount)`: adds `amount` to the bankroll unconditionally. -/
def Player.credit (p : Player) (amount : ℚ) : Player :=
  { p with bankroll := p.bankroll + amount }

/-- The body of the per-player loop of `play_round` (`card_game.py`
lines 137-180), for one player whose hand was already dealt.  `betv` is the
value returned by the external bet collaborator (`prompt_bet`). -/
def playerTurn (ante : ℚ) (betv : ℚ) (p : Player) : Except String Player :=
  if p.bankroll < ante then
    Except.ok { p with outcome := "Cannot cover ante; skipped." }
  else do
    let p1 ← p.pay ante
    let p2 := { p1 with ante_paid := ante }
    let p3 := { p2 with bet := betv }
    if p3.bet = 0 then
      Except.ok { p3 with outcome := "No bet placed; round ended." }
    else do
      let p4 ← p3.pay p3.bet
      if hand_has_joker p4.hand then
        let win := p4.bet * 3
        Except.ok { p4.credit win with payout := win, outcome := "Joker! Wins (3x bet)." }
      else
        let total := score_hand p4.hand
        if 32 ≤ total then
          let win := p4.bet * 2
          Except.ok { p4.credit win with payout := win, outcome := "Win! Score pays (2x bet)." }
        else
          Except.ok { p4 with outcome := "Lose. Score below 32." }

/-- The dealing loop of `play_round` (lines 133-135): each player is reset
and dealt the next four cards of the shared deck, in player order, before
any betting begins. -/
def deal (deck : List Card) : List Player → Except String (List Player × List Card)
  | [] => Except.ok ([], deck)
  | p :: ps =>
      match Deck.draw deck 4 with
      | (Except.error e, _) => Except.error e
      | (Except.ok cards, rest) => do
          let (ps', deck') ← deal rest ps
          Except.ok ({ p.reset_round with hand := cards } :: ps', deck')

/-- The betting loop of `play_round` (lines 137-180): players are processed
strictly in order; `bets i` is the bet the collaborator returns for the
i-th player. -/
def runPlayers (ante : ℚ) (bets : Nat → ℚ) : Nat → List Player → Except String (List Player)
  | _, [] => Except.ok []
  | i, p :: ps => do
      let p' ← playerTurn ante (bets i) p
      let ps' ← runPlayers ante bets (i + 1) ps
      Except.ok (p' :: ps')

/-- `play_round(players, max_bet, ante, seed)`: deal four cards to every
player from the shared shuffled deck, then run every player's turn in
order.  `deck` is the shuffled deck (`Deck()` + `shuffle(seed)` produce a
permutation of `Deck.new`; the PRNG itself sits outside the model), and
`bets` is the oracle for the external `prompt_bet` collaborator.  `max_bet`
only constrains the collaborator's output, so it does not occur in the
core computation. -/
def play_round (players : List Player) (ante : ℚ) (deck : List Card) (bets : Nat → ℚ) :
    Except String (List Player) := do
  let (dealt, _) ← deal deck players
  runPlayers ante bets 0 dealt

/-! ### Branch characterization of a single player's turn -/

/-- Eligibility check fails: the player is skipped, only `outcome` changes. -/
theorem playerTurn_skip (ante betv : ℚ) (p : Player) (h : p.bankroll < ante) :
    playerTurn ante betv p = Except.ok { p with outcome := "Cannot cover ante; skipped." } := by
  simp [playerTurn, h]

/-- Eligible player, zero bet: ante is debited and kept, round ends. -/
theorem playerTurn_nobet (ante betv : ℚ) (p : Player) (h : ¬ p.bankroll < ante) (hb : betv = 0) :
    playerTurn ante betv p =
      Except.ok { p with bankroll := p.bankroll - ante, ante_paid := ante, bet := 0,
                         outcome := "No bet placed; round ended." } := by
  simp [playerTurn, Player.pay, h, hb, bind, Except.bind]

/-- Eligible player, nonzero affordable bet, joker in hand: pays 3x bet. -/
theorem playerTurn_joker (ante betv : ℚ) (p : Player) (h : ¬ p.bankroll < ante)
    (hb : ¬ betv = 0) (hble : ¬ betv > p.bankroll - ante) (hj : hand_has_joker p.hand = true) :
    playerTurn ante betv p =
      Except.ok { p with bankroll := p.bankroll - ante - betv + betv * 3, ante_paid := ante,
                         bet := betv, payout := betv * 3, outcome := "Joker! Wins (3x bet)." } := by
  simp [playerTurn, Player.pay, Player.credit, h, hb, hble, hj, bind, Except.bind]

/-- Eligible player, nonzero affordable bet, no joker, score at least 32:
pays 2x bet. -/
theorem playerTurn_scorewin (ante betv : ℚ) (p : Player) (h : ¬ p.bankroll < ante)
    (hb : ¬ betv = 0) (hble : ¬ betv > p.bankroll - ante) (hj : hand_has_joker p.hand = false)
    (hs : 32 ≤ score_hand p.hand) :
    playerTurn ante betv p =
      Except.ok { p with bankroll := p.bankroll - ante - betv + betv * 2, ante_paid := ante,
                         bet := betv, payout := betv * 2, outcome := "Win! Score pays (2x bet)." } := by
  simp [playerTurn, Player.pay, Player.credit, h, hb, hble, hj, hs, bind, Except.bind]

/-- Eligible player, nonzero affordable bet, no joker, score below 32:
the bet is lost and no payout is credited. -/
theorem playerTurn_lose (ante betv : ℚ) (p : Player) (h : ¬ p.bankroll < ante)
    (hb : ¬ betv = 0) (hble : ¬ betv > p.bankroll - ante) (hj : hand_has_joker p.hand = false)
    (hs : ¬ 32 ≤ score_hand p.hand) :
    playerTurn ante betv p =
      Except.ok { p with bankroll := p.bankroll - ante - betv, ante_paid := ante,
                         bet := betv, outcome := "Lose. Score below 32." } := by
  simp [playerTurn, Player.pay, Player.credit, h, hb, hble, hj, hs, bind, Except.bind]

/-- Eligible player whose bet exceeds the post-ante bankroll: `pay` raises,
which only happens when the bet collaborator violates its contract. -/
theorem playerTurn_insufficient (ante betv : ℚ) (p : Player) (h : ¬ p.bankroll < ante)
    (hb : ¬ betv = 0) (hgt : betv > p.bankroll - ante) :
    playerTurn ante betv p = Except.error (p.name ++ " cannot cover the payment") := by
  simp [playerTurn, Player.pay, h, hb, hgt, bind, Except.bind]

/-- Inversion: a successful turn is exactly one of the five outcome shapes. -/
theorem playerTurn_ok_inv (ante betv : ℚ) (p q : Player)
    (hq : playerTurn ante betv p = Except.ok q) :
    (p.bankroll < ante ∧ q = { p with outcome := "Cannot cover ante; skipped." })
    ∨ (¬ p.bankroll < ante ∧ betv = 0 ∧
        q = { p with bankroll := p.bankroll - ante, ante_paid := ante, bet := 0,
                     outcome := "No bet placed; round ended." })
    ∨ (¬ p.bankroll < ante ∧ ¬ betv = 0 ∧ ¬ betv > p.bankroll - ante ∧
        hand_has_joker p.hand = true ∧
        q = { p with bankroll := p.bankroll - ante - betv + betv * 3, ante_paid := ante,
                     bet := betv, payout := betv * 3, outcome := "Joker! Wins (3x bet)." })
    ∨ (¬ p.bankroll < ante ∧ ¬ betv = 0 ∧ ¬ betv > p.bankroll - ante ∧
        hand_has_joker p.hand = false ∧ 32 ≤ score_hand p.hand ∧
        q = { p with bankroll := p.bankroll - ante - betv + betv * 2, ante_paid := ante,
                     bet := betv, payout := betv * 2, outcome := "Win! Score pays (2x bet)." })
    ∨ (¬ p.bankroll < ante ∧ ¬ betv = 0 ∧ ¬ betv > p.bankroll - ante ∧
        hand_has_joker p.hand = false ∧ ¬ 32 ≤ score_hand p.hand ∧
        q = { p with bankroll := p.bankroll - ante - betv, ante_paid := ante,
                     bet := betv, outcome := "Lose. Score below 32." }) := by
  by_cases h : p.bankroll < ante
  · left
    rw [playerTurn_skip ante betv p h] at hq
    exact ⟨h, (Except.ok.inj hq).symm⟩
  · by_cases hb : betv = 0
    · right; left
      rw [playerTurn_nobet ante betv p h hb] at hq
      exact ⟨h, hb, (Except.ok.inj hq).symm⟩
    · by_cases hgt : betv > p.bankroll - ante
      · exfalso
        rw [playerTurn_insufficient ante betv p h hb hgt] at hq
        exact Except.noConfusion hq
      · by_cases hj : hand_has_joker p.hand = true
        · right; right; left
          rw [playerTurn_joker ante betv p h hb hgt hj] at hq
          exact ⟨h, hb, hgt, hj, (Except.ok.inj hq).symm⟩
        · have hj' : hand_has_joker p.hand = false := by
            cases hhj : hand_has_joker p.hand
            · rfl
            · exact absurd hhj hj
          by_cases hs : 32 ≤ score_hand p.hand
          · right; right; right; left
            rw [playerTurn_scorewin ante betv p h hb hgt hj' hs] at hq
            exact ⟨h, hb, hgt, hj', hs, (Except.ok.inj hq).symm⟩
          · right; right; right; right
            rw [playerTurn_lose ante betv p h hb hgt hj' hs] at hq
            exact ⟨h, hb, hgt, hj', hs, (Except.ok.inj hq).symm⟩

/-! ### Characterization of dealing and of the whole round -/

/-- A successful deal resets every player, hands player `i` the cards at
positions `4*i .. 4*i+3` of the shared deck, and leaves the deck at the
remaining cards. -/
theorem deal_ok (ps : List Player) : ∀ (deck : List Card) (ds : List Player) (rest : List Card),
    deal deck ps = Except.ok (ds, rest) →
    ds.length = ps.length ∧ 4 * ps.length ≤ deck.length ∧ rest = deck.drop (4 * ps.length) ∧
    ∀ (i : Nat) (pi : Player), ps[i]? = some pi →
      ds[i]? = some { pi.reset_round with hand := (deck.drop (4 * i)).take 4 } := by
  induction ps with
  | nil =>
      intro deck ds rest h
      simp [deal] at h
      obtain ⟨h1, h2⟩ := h
      subst h1
      subst h2
      simp
  | cons p ps ih =>
      intro deck ds rest h
      by_cases hlen : 4 > deck.length
      · simp [deal, Deck.draw, hlen] at h
      · simp only [deal, Deck.draw, if_neg hlen] at h
        cases hd : deal (deck.drop 4) ps with
        | error e => rw [hd] at h; simp [bind, Except.bind] at h
        | ok v =>
            obtain ⟨ds', rest'⟩ := v
            rw [hd] at h
            simp only [bind, Except.bind, Except.ok.injEq, Prod.mk.injEq] at h
            obtain ⟨hds, hrest⟩ := h
            obtain ⟨ihlen, ihle, ihrest, ihidx⟩ := ih (deck.drop 4) ds' rest' hd
            subst hds
            subst hrest
            refine ⟨by simp [ihlen], ?_, ?_, ?_⟩
            · have hdl : (deck.drop 4).length = deck.length - 4 := by simp
              rw [hdl] at ihle
              simp only [List.length_cons]
              omega
            · rw [ihrest, List.drop_drop]
              have harith : 4 + 4 * ps.length = 4 * (p :: ps).length := by
                simp only [List.length_cons]
                ring
              rw [harith]
            · intro i pi hpi
              match i with
              | 0 =>
                  simp only [List.getElem?_cons_zero, Option.some.injEq] at hpi
                  subst hpi
                  simp
              | Nat.succ j =>
                  simp only [List.getElem?_cons_succ] at hpi ⊢
                  have hj := ihidx j pi hpi
                  rw [hj, List.drop_drop]
                  have harith : 4 + 4 * j = 4 * j.succ := by omega
                  rw [harith]

/-- A successful betting loop maps `playerTurn` over the players in order,
feeding player `j` the oracle value at index `i + j`. -/
theorem runPlayers_ok (ante : ℚ) (bets : Nat → ℚ) (ps : List Player) :
    ∀ (i : Nat) (qs : List Player), runPlayers ante bets i ps = Except.ok qs →
    qs.length = ps.length ∧
    ∀ (j : Nat) (pj : Player), ps[j]? = some pj →
      ∃ qj, qs[j]? = some qj ∧ playerTurn ante (bets (i + j)) pj = Except.ok qj := by
  induction ps with
  | nil =>
      intro i qs h
      simp [runPlayers] at h
      subst h
      simp
  | cons p ps ih =>
      intro i qs h
      simp only [runPlayers] at h
      cases hp : playerTurn ante (bets i) p with
      | error e => rw [hp] at h; simp [bind, Except.bind] at h
      | ok p' =>
          rw [hp] at h
          cases hr : runPlayers ante bets (i + 1) ps with
          | error e => rw [hr] at h; simp [bind, Except.bind] at h
          | ok qs' =>
              rw [hr] at h
              simp only [bind, Except.bind, Except.ok.injEq] at h
              subst h
              obtain ⟨ihlen, ihidx⟩ := ih (i + 1) qs' hr
              refine ⟨by simp [ihlen], ?_⟩
              intro j pj hpj
              match j with
              | 0 =>
                  simp only [List.getElem?_cons_zero, Option.some.injEq] at hpj
                  subst hpj
                  exact ⟨p', by simp, by simpa using hp⟩
              | Nat.succ k =>
                  simp only [List.getElem?_cons_succ] at hpj ⊢
                  obtain ⟨qj, hqj, hturn⟩ := ihidx k pj hpj
                  refine ⟨qj, hqj, ?_⟩
                  have harith : i + 1 + k = i + (k + 1) := by omega
                  rwa [harith] at hturn

/-- A successful `play_round` is: deal hands positionally from the shared
deck, then run every player's turn in order on the dealt player. -/
theorem play_round_ok (players : List Player) (ante : ℚ) (deck : List Card) (bets : Nat → ℚ)
    (qs : List Player) (h : play_round players ante deck bets = Except.ok qs) :
    qs.length = players.length ∧ 4 * players.length ≤ deck.length ∧
    ∀ (i : Nat) (pi : Player), players[i]? = some pi →
      ∃ qi, qs[i]? = some qi ∧
        playerTurn ante (bets i)
          { pi.reset_round with hand := (deck.drop (4 * i)).take 4 } = Except.ok qi := by
  simp only [play_round] at h
  cases hd : deal deck players with
  | error e => rw [hd] at h; simp [bind, Except.bind] at h
  | ok v =>
      obtain ⟨ds, rest⟩ := v
      rw [hd] at h
      simp only [bind, Except.bind] at h
      obtain ⟨dlen, dle, _, didx⟩ := deal_ok players deck ds rest hd
      obtain ⟨rlen, ridx⟩ := runPlayers_ok ante bets ds 0 qs h
      refine ⟨by rw [rlen, dlen], dle, ?_⟩
      intro i pi hpi
      obtain ⟨qi, hqi, hturn⟩ := ridx i _ (didx i pi hpi)
      exact ⟨qi, hqi, by simpa using hturn⟩

/-- The per-player cash-flow identity, for a player entering the turn with
reset transient fields (as every dealt player does). -/
theorem playerTurn_balance (ante betv : ℚ) (p q : Player) (h0a : p.ante_paid = 0)
    (h0b : p.bet = 0) (h0p : p.payout = 0) (h : playerTurn ante betv p = Except.ok q) :
    q.bankroll = p.bankroll - q.ante_paid - q.bet + q.payout := by
  rcases playerTurn_ok_inv ante betv p q h with
    ⟨_, hq⟩ | ⟨_, _, hq⟩ | ⟨_, _, _, _, hq⟩ | ⟨_, _, _, _, _, hq⟩ | ⟨_, _, _, _, _, hq⟩
  all_goals subst hq
  all_goals simp [h0a, h0b, h0p]

/-! ### Claim theorems -/

/-- C1: for every player processed by `play_round`, whatever outcome branch
is taken, the final bankroll equals the bankroll at the start of the round
minus `ante_paid` minus `bet` plus `payout`, exactly. -/
theorem play_round_balance (players : List Player) (ante : ℚ) (deck : List Card)
    (bets : Nat → ℚ) (qs : List Player) (h : play_round players ante deck bets = Except.ok qs)
    (i : Nat) (pi qi : Player) (hpi : players[i]? = some pi) (hqi : qs[i]? = some qi) :
    qi.bankroll = pi.bankroll - qi.ante_paid - qi.bet + qi.payout := by
  obtain ⟨_, _, hidx⟩ := play_round_ok players ante deck bets qs h
  obtain ⟨qi', hqi', hturn⟩ := hidx i pi hpi
  rw [hqi] at hqi'
  obtain rfl : qi = qi' := by exact Option.some.inj hqi'
  exact playerTurn_balance ante (bets i)
    { pi.reset_round with hand := (deck.drop (4 * i)).take 4 } qi
    (by simp [Player.reset_round]) (by simp [Player.reset_round])
    (by simp [Player.reset_round]) hturn

/-- C3: a player whose bankroll is below the ante is skipped: outcome set to
the skip message, bankroll untouched, `ante_paid`, `bet` and `payout` left at
their reset value 0, the already-dealt 4-card hand kept, and every other
player of the round is still processed (the result has all players). -/
theorem play_round_skip_effects (players : List Player) (ante : ℚ) (deck : List Card)
    (bets : Nat → ℚ) (qs : List Player) (h : play_round players ante deck bets = Except.ok qs)
    (i : Nat) (pi qi : Player) (hpi : players[i]? = some pi) (hqi : qs[i]? = some qi)
    (hlt : pi.bankroll < ante) :
    qi.outcome = "Cannot cover ante; skipped." ∧ qi.bankroll = pi.bankroll ∧
    qi.ante_paid = 0 ∧ qi.bet = 0 ∧ qi.payout = 0 ∧ qi.name = pi.name ∧
    qi.hand = (deck.drop (4 * i)).take 4 ∧ qi.hand.length = 4 ∧
    qs.length = players.length := by
  obtain ⟨hlen, hle, hidx⟩ := play_round_ok players ante deck bets qs h
  obtain ⟨qi', hqi', hturn⟩ := hidx i pi hpi
  rw [hqi] at hqi'
  obtain rfl : qi = qi' := by exact Option.some.inj hqi'
  have hi : i < players.length := by
    rcases List.getElem?_eq_some.mp hpi with ⟨hw, _⟩
    exact hw
  have hdlt : ({ pi.reset_round with hand := (deck.drop (4 * i)).take 4 } : Player).bankroll < ante := hlt
  rw [playerTurn_skip ante (bets i) _ hdlt] at hturn
  have hq := (Except.ok.inj hturn).symm
  subst hq
  refine ⟨rfl, rfl, rfl, rfl, rfl, rfl, rfl, ?_, hlen⟩
  simp only [Player.reset_round, List.length_take, List.length_drop]
  omega

/-- C4: an eligible player who bets 0 keeps the no-bet outcome, records
`bet = 0` and `payout = 0`, and forfeits the ante: the bankroll ends exactly
`ante` lower than it started, with no crediting. -/
theorem play_round_nobet_effects (players : List Player) (ante : ℚ) (deck : List Card)
    (bets : Nat → ℚ) (qs : List Player) (h : play_round players ante deck bets = Except.ok qs)
    (i : Nat) (pi qi : Player) (hpi : players[i]? = some pi) (hqi : qs[i]? = some qi)
    (hge : ¬ pi.bankroll < ante) (hb : bets i = 0) :
    qi.outcome = "No bet placed; round ended." ∧ qi.bet = 0 ∧ qi.payout = 0 ∧
    qi.ante_paid = ante ∧ qi.bankroll = pi.bankroll - ante := by
  obtain ⟨_, _, hidx⟩ := play_round_ok players ante deck bets qs h
  obtain ⟨qi', hqi', hturn⟩ := hidx i pi hpi
  rw [hqi] at hqi'
  obtain rfl : qi = qi' := by exact Option.some.inj hqi'
  have hdge : ¬ ({ pi.reset_round with hand := (deck.drop (4 * i)).take 4 } : Player).bankroll < ante := hge
  rw [playerTurn_nobet ante (bets i) _ hdge hb] at hturn
  have hq := (Except.ok.inj hturn).symm
  subst hq
  exact ⟨rfl, rfl, rfl, rfl, rfl⟩

/-- Payout branch analysis for one eligible, positively-betting player. -/
theorem playerTurn_branches (ante betv : ℚ) (p q : Player) (h0p : p.payout = 0)
    (hel : ¬ p.bankroll < ante) (hpos : 0 < betv)
    (h : playerTurn ante betv p = Except.ok q) :
    (hand_has_joker p.hand = true → q.payout = betv * 3 ∧ q.bet = betv ∧
      q.bankroll = p.bankroll - ante - betv + betv * 3) ∧
    (hand_has_joker p.hand = false → 32 ≤ score_hand p.hand →
      q.payout = betv * 2 ∧ q.bet = betv ∧
      q.bankroll = p.bankroll - ante - betv + betv * 2) ∧
    (hand_has_joker p.hand = false → ¬ 32 ≤ score_hand p.hand →
      q.payout = 0 ∧ q.bet = betv ∧ q.bankroll = p.bankroll - ante - betv) := by
  rcases playerTurn_ok_inv ante betv p q h with
    ⟨hlt, _⟩ | ⟨_, hz, _⟩ | ⟨_, _, _, hj, hq⟩ | ⟨_, _, _, hj, hs, hq⟩ | ⟨_, _, _, hj, hs, hq⟩
  · exact absurd hlt hel
  · exact absurd hz (ne_of_gt hpos)
  · subst hq
    refine ⟨fun _ => ⟨rfl, rfl, rfl⟩, fun hf => ?_, fun hf => ?_⟩
    all_goals rw [hf] at hj; exact Bool.noConfusion hj
  · subst hq
    refine ⟨fun ht => ?_, fun _ _ => ⟨rfl, rfl, rfl⟩, fun _ hs2 => absurd hs hs2⟩
    rw [ht] at hj; exact Bool.noConfusion hj
  · subst hq
    refine ⟨fun ht => ?_, fun _ hs2 => absurd hs2 hs, fun _ _ => ⟨h0p, rfl, rfl⟩⟩
    rw [ht] at hj; exact Bool.noConfusion hj

/-- Result-shape invariants for one player entering with reset fields. -/
theorem playerTurn_invariants (ante betv : ℚ) (p q : Player) (h0a : p.ante_paid = 0)
    (h0p : p.payout = 0)
    (h : playerTurn ante betv p = Except.ok q) :
    (q.payout = 0 ∨ q.payout = q.bet * 2 ∨ q.payout = q.bet * 3) ∧
    (q.outcome = "Cannot cover ante; skipped." → q.ante_paid = 0) ∧
    (q.outcome ≠ "Cannot cover ante; skipped." → q.ante_paid = ante) ∧
    (q.payout ≠ 0 → q.bet ≠ 0) := by
  rcases playerTurn_ok_inv ante betv p q h with
    ⟨_, hq⟩ | ⟨_, _, hq⟩ | ⟨_, hbz, _, _, hq⟩ | ⟨_, hbz, _, _, _, hq⟩ | ⟨_, _, _, _, _, hq⟩
  · subst hq
    refine ⟨Or.inl h0p, fun _ => h0a, fun hne => absurd rfl hne, fun hne => absurd h0p hne⟩
  · subst hq
    refine ⟨Or.inl h0p, fun heq => absurd heq
      (show ¬ "No bet placed; round ended." = "Cannot cover ante; skipped." by decide),
      fun _ => rfl, fun hne => absurd h0p hne⟩
  · subst hq
    exact ⟨Or.inr (Or.inr rfl), fun heq => absurd heq
      (show ¬ "Joker! Wins (3x bet)." = "Cannot cover ante; skipped." by decide),
      fun _ => rfl, fun _ => hbz⟩
  · subst hq
    exact ⟨Or.inr (Or.inl rfl), fun heq => absurd heq
      (show ¬ "Win! Score pays (2x bet)." = "Cannot cover ante; skipped." by decide),
      fun _ => rfl, fun _ => hbz⟩
  · subst hq
    exact ⟨Or.inl h0p, fun heq => absurd heq
      (show ¬ "Lose. Score below 32." = "Cannot cover ante; skipped." by decide),
      fun _ => rfl, fun hne => absurd h0p hne⟩

/-- C2: for every player who places a positive bet, payout determination
takes mutually exclusive branches with the joker check first: joker pays
3x the bet credited to the bankroll; else a score of at least 32 pays 2x
the bet credited to the bankroll; else the payout is 0 and nothing is
credited. -/
theorem play_round_payout_branches (players : List Player) (ante : ℚ) (deck : List Card)
    (bets : Nat → ℚ) (qs : List Player) (h : play_round players ante deck bets = Except.ok qs)
    (i : Nat) (pi qi : Player) (hpi : players[i]? = some pi) (hqi : qs[i]? = some qi)
    (hel : ¬ pi.bankroll < ante) (hpos : 0 < bets i) :
    (hand_has_joker ((deck.drop (4 * i)).take 4) = true →
      qi.payout = bets i * 3 ∧ qi.bet = bets i ∧
      qi.bankroll = pi.bankroll - ante - bets i + bets i * 3) ∧
    (hand_has_joker ((deck.drop (4 * i)).take 4) = false →
      32 ≤ score_hand ((deck.drop (4 * i)).take 4) →
      qi.payout = bets i * 2 ∧ qi.bet = bets i ∧
      qi.bankroll = pi.bankroll - ante - bets i + bets i * 2) ∧
    (hand_has_joker ((deck.drop (4 * i)).take 4) = false →
      ¬ 32 ≤ score_hand ((deck.drop (4 * i)).take 4) →
      qi.payout = 0 ∧ qi.bet = bets i ∧
      qi.bankroll = pi.bankroll - ante - bets i) := by
  obtain ⟨_, _, hidx⟩ := play_round_ok players ante deck bets qs h
  obtain ⟨qi', hqi', hturn⟩ := hidx i pi hpi
  rw [hqi] at hqi'
  obtain rfl : qi = qi' := Option.some.inj hqi'
  exact playerTurn_branches ante (bets i)
    { pi.reset_round with hand := (deck.drop (4 * i)).take 4 } qi
    (by simp [Player.reset_round]) hel hpos hturn

/-- C9: after a completed round, every player's payout is 0, 2x their bet,
or 3x their bet; their `ante_paid` is 0 exactly on the skip outcome and the
configured ante otherwise; and a nonzero payout implies a nonzero bet. -/
theorem play_round_invariants (players : List Player) (ante : ℚ) (deck : List Card)
    (bets : Nat → ℚ) (qs : List Player) (h : play_round players ante deck bets = Except.ok qs)
    (i : Nat) (pi qi : Player) (hpi : players[i]? = some pi) (hqi : qs[i]? = some qi) :
    (qi.payout = 0 ∨ qi.payout = qi.bet * 2 ∨ qi.payout = qi.bet * 3) ∧
    (qi.outcome = "Cannot cover ante; skipped." → qi.ante_paid = 0) ∧
    (qi.outcome ≠ "Cannot cover ante; skipped." → qi.ante_paid = ante) ∧
    (qi.payout ≠ 0 → qi.bet ≠ 0) := by
  obtain ⟨_, _, hidx⟩ := play_round_ok players ante deck bets qs h
  obtain ⟨qi', hqi', hturn⟩ := hidx i pi hpi
  rw [hqi] at hqi'
  obtain rfl : qi = qi' := Option.some.inj hqi'
  exact playerTurn_invariants ante (bets i)
    { pi.reset_round with hand := (deck.drop (4 * i)).take 4 } qi
    (by simp [Player.reset_round]) (by simp [Player.reset_round]) hturn

/-- C5 counterexample: the fresh deck is NOT a list of 54 pairwise-distinct
cards: the two jokers are equal as card values (`Card` is a frozen
dataclass), so positions 52 and 53 hold the same card. -/
theorem deck_new_not_pairwise_distinct :
    Deck.new.length = 54 ∧ Deck.new[52]? = some (Card.mk JOKER none) ∧
    Deck.new[53]? = some (Card.mk JOKER none) ∧ ¬ Deck.new.Nodup := by
  refine ⟨by decide, by decide, by decide, by decide⟩

/-- C5 (amended): the fresh deck has exactly 54 cards in the fixed
enumeration order — suits outer loop, ranks inner loop (the card at
position `13*i + j` is rank `j` of suit `i`), then two jokers appended —
and the 52 suited cards are pairwise distinct; only the two jokers
coincide, so the deck has 53 distinct card values. -/
theorem deck_new_enumeration :
    Deck.new.length = 54 ∧ (Deck.new.take 52).Nodup ∧
    (∀ i : Nat, i < 4 → ∀ j : Nat, j < 13 →
      Deck.new[13 * i + j]? =
        (SUITS[i]?).bind (fun suit => (RANKS[j]?).map (fun rank => Card.mk rank (some suit)))) ∧
    Deck.new[52]? = some (Card.mk JOKER none) ∧
    Deck.new[53]? = some (Card.mk JOKER none) ∧
    Deck.new.dedup.length = 53 := by
  refine ⟨by decide, by decide, ?_, by decide, by decide, by decide⟩
  decide

/-- C6 counterexample: drawing all 54 cards succeeds and returns a list
that DOES contain a duplicate card (the two equal jokers), so "never
returns a duplicate card" fails as stated at the value level. -/
theorem deck_draw_returns_duplicate :
    (Deck.draw Deck.new 54).1 = Except.ok Deck.new ∧ ¬ Deck.new.Nodup := by
  exact ⟨rfl, by decide⟩

/-- C6 (amended): `draw(count)` fails with the insufficient-cards error iff
`count` exceeds the remaining card count, leaving the deck unchanged;
otherwise it removes and returns exactly the first `count` cards in order
and mutates the deck to the remaining cards.  Counted with multiplicity no
card is duplicated or invented (drawn ++ remainder is the original deck),
and whenever the deck's cards are pairwise distinct the drawn cards contain
no duplicate and none of them stays in the deck. -/
theorem deck_draw_spec (cards : List Card) (count : Nat) :
    (count > cards.length →
      Deck.draw cards count = (Except.error "Not enough cards to draw", cards)) ∧
    (count ≤ cards.length →
      Deck.draw cards count = (Except.ok (cards.take count), cards.drop count) ∧
      (cards.take count).length = count ∧
      cards.take count ++ cards.drop count = cards ∧
      (cards.Nodup → (cards.take count).Nodup ∧
        ∀ c ∈ cards.take count, c ∉ cards.drop count)) := by
  constructor
  · intro hgt
    simp [Deck.draw, hgt]
  · intro hle
    have hno : ¬ count > cards.length := not_lt.mpr hle
    refine ⟨by simp [Deck.draw, hno], by simp [List.length_take, hle], List.take_append_drop count cards, ?_⟩
    intro hnd
    have hnd2 : (cards.take count ++ cards.drop count).Nodup := by
      rw [List.take_append_drop]
      exact hnd
    rcases List.nodup_append.mp hnd2 with ⟨h1, _, h3⟩
    exact ⟨h1, h3⟩

/-- C7 counterexample: on a reachable deck state (the fresh deck),
`draw(53)` followed by `draw(1)` does NOT yield disjoint card sets: the
second draw returns a joker that the first draw already contains, because
the two jokers are equal card values. -/
theorem draw_split_shares_card :
    (Deck.draw Deck.new 53).1 = Except.ok (Deck.new.take 53) ∧
    (Deck.draw Deck.new 53).2 = [Card.mk JOKER none] ∧
    (Deck.draw [Card.mk JOKER none] 1).1 = Except.ok [Card.mk JOKER none] ∧
    Card.mk JOKER none ∈ Deck.new.take 53 := by
  refine ⟨rfl, by decide, rfl, by decide⟩

/-- C7 (amended): for every deck state and all `n`, `m` with `n + m` within
the remaining count, `draw(n)` followed by `draw(m)` succeeds, the two
results occupy disjoint position ranges and their concatenation equals the
single `draw(n+m)` from the same starting state (same drawn cards, same
final deck); when the deck's cards are pairwise distinct the two drawn card
sets are disjoint. -/
theorem draw_then_draw (cards : List Card) (n m : Nat) (h : n + m ≤ cards.length) :
    Deck.draw cards n = (Except.ok (cards.take n), cards.drop n) ∧
    Deck.draw (cards.drop n) m =
      (Except.ok ((cards.drop n).take m), (cards.drop n).drop m) ∧
    (Deck.draw cards (n + m)).1 =
      Except.ok (cards.take n ++ (cards.drop n).take m) ∧
    (Deck.draw cards (n + m)).2 = (cards.drop n).drop m ∧
    (cards.Nodup → ∀ c ∈ cards.take n, c ∉ (cards.drop n).take m) := by
  have hn : ¬ n > cards.length := by omega
  have hm : ¬ cards.length - n < m := by omega
  have hnm : ¬ n + m > cards.length := by omega
  have hsplit : cards.take (n + m) = cards.take n ++ (cards.drop n).take m :=
    List.take_add cards n m
  refine ⟨by simp [Deck.draw, hn], by simp [Deck.draw, List.length_drop, hm], ?_, ?_, ?_⟩
  · simp [Deck.draw, hnm, hsplit]
  · simp [Deck.draw, hnm, List.drop_drop, Nat.add_comm]
  · intro hnd
    have hnd2 : (cards.take (n + m)).Nodup :=
      hnd.sublist (List.take_sublist (n + m) cards) |> fun hh => hh
    rw [hsplit] at hnd2
    rcases List.nodup_append.mp hnd2 with ⟨_, _, h3⟩
    exact h3

/-- C8: `score_hand` is a pure total function returning the sum of
`value()` over the non-joker cards only, where `value()` is 11 for rank A,
10 for J/Q/K and the integer value for the numeric ranks 2-10; a joker
card contributes nothing to the sum. -/
theorem score_hand_value_spec :
    (∀ hand : List Card, score_hand hand =
      ((hand.filter (fun c => c.rank ≠ JOKER)).map Card.value).sum) ∧
    (∀ s : Option String, (Card.mk "A" s).value = 11) ∧
    (∀ (s : Option String) (r : String), (r = "J" ∨ r = "Q" ∨ r = "K") →
      (Card.mk r s).value = 10) ∧
    (∀ (s : Option String) (n : Nat), 2 ≤ n → n ≤ 10 →
      (Card.mk (toString n) s).value = Int.ofNat n) ∧
    (∀ (hand : List Card) (c : Card), c.rank = JOKER →
      score_hand (c :: hand) = score_hand hand) := by
  refine ⟨fun _ => rfl, fun s => by simp [Card.value, JOKER], ?_, ?_, ?_⟩
  · rintro s r (rfl | rfl | rfl) <;> simp [Card.value, JOKER]
  · intro s n h2 h10
    interval_cases n <;> simp +decide [Card.value, JOKER, intOfString, intOfDigits]
  · intro hand c hc
    simp [score_hand, List.filter_cons, hc]

/-- The valuation the claim describes: the sum of `value()` over ALL cards
of the hand, jokers included, with no filter. -/
def score_hand_unfiltered (hand : List Card) : Int :=
  (hand.map Card.value).sum

/-- C10: the non-joker filter inside `score_hand` is redundant: since
`value()` returns 0 for a joker, the filtered sum the source computes
equals the unfiltered sum over the whole hand. -/
theorem score_hand_filter_redundant :
    ∀ hand : List Card, score_hand hand = score_hand_unfiltered hand := by
  intro hand
  induction hand with
  | nil => rfl
  | cons c cs ih =>
      by_cases hc : c.rank = JOKER
      · have hv : c.value = 0 := by simp [Card.value, hc, JOKER]
        simp only [score_hand, score_hand_unfiltered, List.filter_cons, List.map_cons,
          List.sum_cons, hc, hv] at ih ⊢
        simpa using ih
      · simp only [score_hand, score_hand_unfiltered] at ih ⊢
        rw [List.filter_cons, if_pos (by simp [hc])]
        simp only [List.map_cons, List.sum_cons, ih]

/-! ### Concrete witnesses -/

/-- C1 witness: a concrete completed round (ante 5, bet 10, losing hand
A,2,3,4 of spades) satisfying the cash-flow identity: 85 = 100-5-10+0. -/
theorem play_round_balance_witness :
    play_round [Player.mk "A" 100 [] 0 0 "" 0] 5 Deck.new (fun _ => 10) =
      Except.ok [Player.mk "A" 85 [Card.mk "A" (some "♠"), Card.mk "2" (some "♠"),
        Card.mk "3" (some "♠"), Card.mk "4" (some "♠")] 5 10 "Lose. Score below 32." 0] ∧
    (85 : ℚ) = 100 - 5 - 10 + 0 := by
  have h : play_round [Player.mk "A" 100 [] 0 0 "" 0] 5 Deck.new (fun _ => 10) =
      Except.ok [Player.mk "A" 85 [Card.mk "A" (some "♠"), Card.mk "2" (some "♠"),
        Card.mk "3" (some "♠"), Card.mk "4" (some "♠")] 5 10 "Lose. Score below 32." 0] := by
    norm_num +decide [play_round, deal, Deck.draw, runPlayers, playerTurn, Player.pay,
      Player.credit, Player.reset_round, hand_has_joker, score_hand, Card.value,
      intOfString, intOfDigits, Deck.new, SUITS, RANKS, JOKER, bind, Except.bind]
  exact ⟨h, play_round_balance _ 5 Deck.new (fun _ => 10) _ h 0 _ _ rfl rfl⟩

/-- C2 witness: in the same concrete round the hand has no joker and scores
20 < 32, so the loss branch applies: payout 0, bet kept, no credit. -/
theorem play_round_payout_branches_witness :
    play_round [Player.mk "C" 100 [] 0 0 "" 0] 5 Deck.new (fun _ => 10) =
      Except.ok [Player.mk "C" 85 [Card.mk "A" (some "♠"), Card.mk "2" (some "♠"),
        Card.mk "3" (some "♠"), Card.mk "4" (some "♠")] 5 10 "Lose. Score below 32." 0] ∧
    ((0 : ℚ) = 0 ∧ (10 : ℚ) = 10 ∧ (85 : ℚ) = 100 - 5 - 10) := by
  have h : play_round [Player.mk "C" 100 [] 0 0 "" 0] 5 Deck.new (fun _ => 10) =
      Except.ok [Player.mk "C" 85 [Card.mk "A" (some "♠"), Card.mk "2" (some "♠"),
        Card.mk "3" (some "♠"), Card.mk "4" (some "♠")] 5 10 "Lose. Score below 32." 0] := by
    norm_num +decide [play_round, deal, Deck.draw, runPlayers, playerTurn, Player.pay,
      Player.credit, Player.reset_round, hand_has_joker, score_hand, Card.value,
      intOfString, intOfDigits, Deck.new, SUITS, RANKS, JOKER, bind, Except.bind]
  exact ⟨h, (play_round_payout_branches _ 5 Deck.new (fun _ => 10) _ h 0 _ _ rfl rfl
    (by decide) (by decide)).2.2 (by decide) (by decide)⟩

/-- C3 witness: a player with bankroll 3 against ante 5 is skipped with
everything untouched and the dealt 4-card hand kept. -/
theorem play_round_skip_effects_witness :
    play_round [Player.mk "B" 3 [] 0 0 "" 0] 5 Deck.new (fun _ => 10) =
      Except.ok [Player.mk "B" 3 [Card.mk "A" (some "♠"), Card.mk "2" (some "♠"),
        Card.mk "3" (some "♠"), Card.mk "4" (some "♠")] 0 0 "Cannot cover ante; skipped." 0] ∧
    (3 : ℚ) < 5 ∧
    "Cannot cover ante; skipped." = "Cannot cover ante; skipped." ∧ (3 : ℚ) = 3 ∧
    ([Card.mk "A" (some "♠"), Card.mk "2" (some "♠"), Card.mk "3" (some "♠"),
      Card.mk "4" (some "♠")] : List Card).length = 4 := by
  have h : play_round [Player.mk "B" 3 [] 0 0 "" 0] 5 Deck.new (fun _ => 10) =
      Except.ok [Player.mk "B" 3 [Card.mk "A" (some "♠"), Card.mk "2" (some "♠"),
        Card.mk "3" (some "♠"), Card.mk "4" (some "♠")] 0 0 "Cannot cover ante; skipped." 0] := by
    norm_num +decide [play_round, deal, Deck.draw, runPlayers, playerTurn, Player.pay,
      Player.credit, Player.reset_round, hand_has_joker, score_hand, Card.value,
      intOfString, intOfDigits, Deck.new, SUITS, RANKS, JOKER, bind, Except.bind]
  have hc := play_round_skip_effects _ 5 Deck.new (fun _ => 10) _ h 0 _ _ rfl rfl (by decide)
  exact ⟨h, by decide, hc.1, hc.2.1, hc.2.2.2.2.2.2.2.1⟩

/-- C4 witness: an eligible player betting 0 forfeits exactly the ante:
bankroll 100 ends at 95, bet and payout 0. -/
theorem play_round_nobet_effects_witness :
    play_round [Player.mk "D" 100 [] 0 0 "" 0] 5 Deck.new (fun _ => 0) =
      Except.ok [Player.mk "D" 95 [Card.mk "A" (some "♠"), Card.mk "2" (some "♠"),
        Card.mk "3" (some "♠"), Card.mk "4" (some "♠")] 5 0 "No bet placed; round ended." 0] ∧
    "No bet placed; round ended." = "No bet placed; round ended." ∧
    (0 : ℚ) = 0 ∧ (95 : ℚ) = 100 - 5 := by
  have h : play_round [Player.mk "D" 100 [] 0 0 "" 0] 5 Deck.new (fun _ => 0) =
      Except.ok [Player.mk "D" 95 [Card.mk "A" (some "♠"), Card.mk "2" (some "♠"),
        Card.mk "3" (some "♠"), Card.mk "4" (some "♠")] 5 0 "No bet placed; round ended." 0] := by
    norm_num +decide [play_round, deal, Deck.draw, runPlayers, playerTurn, Player.pay,
      Player.credit, Player.reset_round, hand_has_joker, score_hand, Card.value,
      intOfString, intOfDigits, Deck.new, SUITS, RANKS, JOKER, bind, Except.bind]
  have hc := play_round_nobet_effects _ 5 Deck.new (fun _ => 0) _ h 0 _ _ rfl rfl
    (by decide) rfl
  exact ⟨h, hc.1, hc.2.1, hc.2.2.2.2⟩

/-- C5 witness: position 13*2+5 of the fresh deck is rank "6" of suit "♦"
(suits outer, ranks inner). -/
theorem deck_new_enumeration_witness :
    2 < 4 ∧ 5 < 13 ∧ Deck.new[13 * 2 + 5]? = some (Card.mk "6" (some "♦")) := by
  exact ⟨by decide, by decide, deck_new_enumeration.2.2.1 2 (by decide) 5 (by decide)⟩

/-- C6 witness: drawing 60 from the fresh deck fails and leaves it
unchanged; drawing 5 from the 52 distinct suited cards returns the first 5,
without duplicates. -/
theorem deck_draw_spec_witness :
    Deck.draw Deck.new 60 = (Except.error "Not enough cards to draw", Deck.new) ∧
    Deck.draw (Deck.new.take 52) 5 =
      (Except.ok ((Deck.new.take 52).take 5), (Deck.new.take 52).drop 5) ∧
    ((Deck.new.take 52).take 5).Nodup := by
  refine ⟨(deck_draw_spec Deck.new 60).1 (by decide),
    ((deck_draw_spec (Deck.new.take 52) 5).2 (by decide)).1,
    (((deck_draw_spec (Deck.new.take 52) 5).2 (by decide)).2.2.2 (by decide)).1⟩

/-- C7 witness: on the 52 distinct suited cards, draw(2) then draw(3)
concatenate to draw(5) and share no card. -/
theorem draw_then_draw_witness :
    2 + 3 ≤ (Deck.new.take 52).length ∧
    (Deck.draw (Deck.new.take 52) (2 + 3)).1 =
      Except.ok ((Deck.new.take 52).take 2 ++ ((Deck.new.take 52).drop 2).take 3) ∧
    (∀ c ∈ (Deck.new.take 52).take 2, c ∉ ((Deck.new.take 52).drop 2).take 3) := by
  have h : 2 + 3 ≤ (Deck.new.take 52).length := by decide
  obtain ⟨_, _, h3, _, h5⟩ := draw_then_draw (Deck.new.take 52) 2 3 h
  exact ⟨h, h3, h5 (by decide)⟩

/-- C8 witness: concrete values of the valuation — Q♥ is 10, the numeric
rank 7 is 7, and a prepended joker leaves the score unchanged. -/
theorem score_hand_value_spec_witness :
    (Card.mk "Q" (some "♥")).value = 10 ∧
    (Card.mk (toString 7) none).value = Int.ofNat 7 ∧
    score_hand [Card.mk JOKER none, Card.mk "A" (some "♠")] =
      score_hand [Card.mk "A" (some "♠")] := by
  exact ⟨score_hand_value_spec.2.2.1 (some "♥") "Q" (Or.inr (Or.inl rfl)),
    score_hand_value_spec.2.2.2.1 none 7 (by decide) (by decide),
    score_hand_value_spec.2.2.2.2 [Card.mk "A" (some "♠")] (Card.mk JOKER none) rfl⟩

/-- C9 witness: in a concrete lost round the payout is one of the three
allowed shapes and the non-skipped player's ante_paid is the ante. -/
theorem play_round_invariants_witness :
    play_round [Player.mk "E" 100 [] 0 0 "" 0] 5 Deck.new (fun _ => 10) =
      Except.ok [Player.mk "E" 85 [Card.mk "A" (some "♠"), Card.mk "2" (some "♠"),
        Card.mk "3" (some "♠"), Card.mk "4" (some "♠")] 5 10 "Lose. Score below 32." 0] ∧
    ((0 : ℚ) = 0 ∨ (0 : ℚ) = 10 * 2 ∨ (0 : ℚ) = 10 * 3) ∧ (5 : ℚ) = 5 := by
  have h : play_round [Player.mk "E" 100 [] 0 0 "" 0] 5 Deck.new (fun _ => 10) =
      Except.ok [Player.mk "E" 85 [Card.mk "A" (some "♠"), Card.mk "2" (some "♠"),
        Card.mk "3" (some "♠"), Card.mk "4" (some "♠")] 5 10 "Lose. Score below 32." 0] := by
    norm_num +decide [play_round, deal, Deck.draw, runPlayers, playerTurn, Player.pay,
      Player.credit, Player.reset_round, hand_has_joker, score_hand, Card.value,
      intOfString, intOfDigits, Deck.new, SUITS, RANKS, JOKER, bind, Except.bind]
  have hc := play_round_invariants _ 5 Deck.new (fun _ => 10) _ h 0 _ _ rfl rfl
  exact ⟨h, hc.1, hc.2.2.1 (by decide)⟩

